import Mathlib

/-!
# Verification of the kriti-images transformation core

A shallow embedding, in Lean 4, of the option/value parsers, the fit-mode
resize filters, the border-radius compositor, the filter-chain builder and
the template compositor of the kriti-images repository, together with
theorems settling the specification claims about them.

Conventions of the embedding:
* Go `float32`/`float64` arithmetic is modelled with exact rationals (`ℚ`);
  Go's `int(...)` conversion of a non-negative float is modelled by `Int.floor`.
* Go functions returning `(value, error)` pairs are modelled with
  `Except String _` when exactly one of the two is non-nil, and with an
  explicit pair of `Option`s when the source can return both at once.
* Go map iteration order is unspecified, so functions that range over a map
  take the iteration sequence as an explicit list parameter.
-/

deriving instance DecidableEq for Except

namespace KritiImages

/-- Value of a decimal digit character. -/
def digitVal (c : Char) : ℕ := c.toNat - '0'.toNat

@[simp] theorem digitVal_0 : digitVal '0' = 0 := rfl

@[simp] theorem digitVal_1 : digitVal '1' = 1 := rfl

@[simp] theorem digitVal_2 : digitVal '2' = 2 := rfl

@[simp] theorem digitVal_3 : digitVal '3' = 3 := rfl

@[simp] theorem digitVal_4 : digitVal '4' = 4 := rfl

@[simp] theorem digitVal_5 : digitVal '5' = 5 := rfl

@[simp] theorem digitVal_6 : digitVal '6' = 6 := rfl

@[simp] theorem digitVal_7 : digitVal '7' = 7 := rfl

@[simp] theorem digitVal_8 : digitVal '8' = 8 := rfl

@[simp] theorem digitVal_9 : digitVal '9' = 9 := rfl

/-- Decimal digits of a char list folded into a natural number. -/
def digitsVal (cs : List Char) : ℕ :=
  cs.foldl (fun acc c => 10 * acc + digitVal c) 0

/-- Go `int(x)` conversion of a float: truncation toward zero. -/
def ratTrunc (q : ℚ) : ℤ := if q < 0 then ⌈q⌉ else ⌊q⌋

theorem ratTrunc_nonneg_eq_floor {q : ℚ} (h : 0 ≤ q) : ratTrunc q = ⌊q⌋ := by
  simp [ratTrunc, not_lt.mpr h]

/-- ASCII whitespace (the `\s` class of the Go regexes and `TrimSpace`,
restricted to the ASCII fragment the option strings use). -/
def isSpaceChar (c : Char) : Bool :=
  c = ' ' ∨ c = '\t' ∨ c = '\n' ∨ c = '\r'

/-- Drops leading whitespace. -/
def skipWs : List Char → List Char
  | [] => []
  | c :: t => if isSpaceChar c then skipWs t else c :: t

/-- Models Go `strings.TrimSpace` (ASCII fragment). -/
def trimSpaceChars (cs : List Char) : List Char :=
  (skipWs (skipWs cs.reverse).reverse)

/-- ASCII lower-casing of one character (models Go `strings.ToLower` on the
ASCII color and format names used here). -/
def lowerChar (c : Char) : Char :=
  if 'A' ≤ c ∧ c ≤ 'Z' then Char.ofNat (c.toNat + 32) else c

/-- ASCII lower-casing of a char list. -/
def lowerChars (cs : List Char) : List Char := cs.map lowerChar

/-- `true` when `pre` is a leading segment of `cs` (models Go
`strings.HasPrefix`). -/
def hasPrefixChars (cs pre : List Char) : Bool :=
  decide (cs.take pre.length = pre)

/-- Value of one hex digit, `none` for a non-hex character. -/
def hexDigitVal (c : Char) : Option ℕ :=
  if '0' ≤ c ∧ c ≤ '9' then some (c.toNat - '0'.toNat)
  else if 'a' ≤ c ∧ c ≤ 'f' then some (c.toNat - 'a'.toNat + 10)
  else if 'A' ≤ c ∧ c ≤ 'F' then some (c.toNat - 'A'.toNat + 10)
  else none

/-- Models Go `strconv.ParseUint(_, 16, _)` on the already length-checked
hex strings of `parseHexColor`: every character must be a hex digit. -/
def parseHexNat : List Char → Option ℕ
  | [] => some 0
  | c :: t =>
      match hexDigitVal c, parseHexNat t with
      | some d, some r => some (d * 16 ^ t.length + r)
      | _, _ => none

/-- `true` when `suf` is a suffix of `cs` (models Go `strings.HasSuffix`). -/
def hasSuffixChars (cs suf : List Char) : Bool :=
  decide (suf.length ≤ cs.length ∧ cs.drop (cs.length - suf.length) = suf)

/-- Drops the last `n` characters (models Go `strings.TrimSuffix` once the
suffix has been checked). -/
def dropRightChars (cs : List Char) (n : ℕ) : List Char :=
  cs.take (cs.length - n)

/-- Splits a char list at every occurrence of `sep` (models Go
`strings.Split`). -/
def splitOnChar (sep : Char) : List Char → List (List Char)
  | [] => [[]]
  | c :: t =>
      let r := splitOnChar sep t
      if c = sep then [] :: r
      else
        match r with
        | h :: t2 => (c :: h) :: t2
        | [] => [[c]]

/-- Splitting at `'.'`, as the number parsers need. -/
def splitOnDot (cs : List Char) : List (List Char) := splitOnChar '.' cs

/-- Models Go `strconv.ParseFloat` restricted to the plain decimal notation
(optional sign, digits, optional fractional part) that the repository's
option values use; exponent/hex/inf/nan forms are outside the fragment. -/
def parseDecimalChars (cs0 : List Char) : Option ℚ :=
  let sign : ℚ :=
    match cs0 with
    | '-' :: _ => -1
    | _ => 1
  let body : List Char :=
    match cs0 with
    | '+' :: t => t
    | '-' :: t => t
    | t => t
  match splitOnDot body with
  | [intPart] =>
      if intPart ≠ [] ∧ intPart.all Char.isDigit then
        some (sign * (digitsVal intPart : ℚ))
      else none
  | [intPart, fracPart] =>
      if (intPart ≠ [] ∨ fracPart ≠ []) ∧ intPart.all Char.isDigit ∧
          fracPart.all Char.isDigit then
        some (sign *
          ((digitsVal intPart : ℚ) + (digitsVal fracPart : ℚ) / 10 ^ fracPart.length))
      else none
  | _ => none

/-- `parseDecimalChars` on a `String`. -/
def parseDecimal (s : String) : Option ℚ :=
  parseDecimalChars s.data

/-- Models Go `strconv.Atoi`: optional sign followed by one or more digits. -/
def goAtoi (s : String) : Option ℤ :=
  let body : List Char :=
    match s.data with
    | '+' :: t => t
    | '-' :: t => t
    | t => t
  if body ≠ [] ∧ body.all Char.isDigit then
    match s.data with
    | '-' :: _ => some (-(digitsVal body : ℤ))
    | _ => some (digitsVal body : ℤ)
  else none

/-- `BorderRadiusValue` from `value_parsers.go`: magnitude plus a
percent/pixel flag. -/
structure BorderRadiusValue where
  value : ℚ
  isPercent : Bool
  deriving DecidableEq, Repr

/-- The error string returned unconditionally on the success path of
`parseBorderRadiusValue` (`value_parsers.go` line 265). -/
def radiusSpuriousErr : String := "unexpected number of radius values"

/-- `parseBorderRadiusValue` from `value_parsers.go`: returns the Go
`(*BorderRadiusValue, error)` pair as a pair of options. The final
statement of the Go function is
`return &radiusValue, fmt.Errorf("unexpected number of radius values")`,
so the error component is non-nil even on the success path. -/
def parseBorderRadiusValue (value : String) :
    Option BorderRadiusValue × Option String :=
  let cs := value.data
  if cs = [] then
    (none, some "border radius value cannot be empty")
  else if hasSuffixChars cs ['%'] then
    let percentStr := dropRightChars cs 1
    match parseDecimalChars percentStr with
    | some parsed =>
        if parsed < 0 ∨ 50 < parsed then
          (none, some "percentage value must be between 0% and 50%")
        else
          (some ⟨parsed, true⟩, some radiusSpuriousErr)
    | none => (none, some "percentage value must be between 0% and 50%")
  else
    let pixelStr :=
      if hasSuffixChars cs ['p', 'x'] then dropRightChars cs 2 else cs
    match parseDecimalChars pixelStr with
    | some parsed =>
        if parsed < 0 then
          (none, some "pixel value must be a positive number")
        else
          (some ⟨parsed, false⟩, some radiusSpuriousErr)
    | none => (none, some "pixel value must be a positive number")

/-! ## Colors (`value_parsers.go`) -/

/-- An 8-bit-per-channel RGBA value (Go `color.RGBA`). -/
structure RGBA where
  r : ℕ
  g : ℕ
  b : ℕ
  a : ℕ
  deriving DecidableEq, Repr

/-- A Go `color.Color` interface value as it occurs in this code base:
either one of the two standard-library sentinel colors (`color.Transparent`,
`color.White`) or a parsed `color.RGBA`. Go interface equality distinguishes
`color.Transparent` from an RGBA value with all-zero channels, which is why
the sentinels are separate constructors. -/
inductive GoColor where
  | transparentStd
  | whiteStd
  | rgba (c : RGBA)
  deriving DecidableEq, Repr

/-- The RGBA channels a draw target stores for a `GoColor`. -/
def goColorToRGBA : GoColor → RGBA
  | .transparentStd => ⟨0, 0, 0, 0⟩
  | .whiteStd => ⟨255, 255, 255, 255⟩
  | .rgba c => c

/-- Models Go `url.QueryUnescape` on the ASCII fragment used for color
tokens: `%XX` hex pairs decode to the corresponding character, `'+'`
decodes to a space, a malformed `%` escape is an error. -/
def queryUnescapeChars : List Char → Option (List Char)
  | [] => some []
  | '%' :: a :: b :: t =>
      match hexDigitVal a, hexDigitVal b, queryUnescapeChars t with
      | some ha, some hb, some rest => some (Char.ofNat (16 * ha + hb) :: rest)
      | _, _, _ => none
  | '%' :: _ => none
  | '+' :: t => (queryUnescapeChars t).map (' ' :: ·)
  | c :: t => (queryUnescapeChars t).map (c :: ·)

/-- `parseHexColor` from `value_parsers.go`: 3-, 6- or 8-digit hex colors
after stripping the leading `#`. -/
def parseHexColor (hexIn : List Char) : Except String RGBA :=
  let hex := if hasPrefixChars hexIn ['#'] then hexIn.drop 1 else hexIn
  match hex.length, parseHexNat hex with
  | 3, some parsed =>
      .ok ⟨(parsed / 256 % 16) * 17, (parsed / 16 % 16) * 17, (parsed % 16) * 17, 255⟩
  | 6, some parsed =>
      .ok ⟨parsed / 65536 % 256, parsed / 256 % 256, parsed % 256, 255⟩
  | 8, some parsed =>
      .ok ⟨parsed / 16777216 % 256, parsed / 65536 % 256, parsed / 256 % 256, parsed % 256⟩
  | 3, none => .error "invalid hex color"
  | 6, none => .error "invalid hex color"
  | 8, none => .error "invalid hex color"
  | _, _ => .error "invalid hex color length"

/-- The fixed named-color table of `parseNamedColor`. -/
def namedColors : List (String × RGBA) :=
  [("transparent", ⟨0, 0, 0, 0⟩), ("black", ⟨0, 0, 0, 255⟩),
   ("white", ⟨255, 255, 255, 255⟩), ("red", ⟨255, 0, 0, 255⟩),
   ("green", ⟨0, 128, 0, 255⟩), ("blue", ⟨0, 0, 255, 255⟩),
   ("yellow", ⟨255, 255, 0, 255⟩), ("cyan", ⟨0, 255, 255, 255⟩),
   ("magenta", ⟨255, 0, 255, 255⟩), ("gray", ⟨128, 128, 128, 255⟩),
   ("orange", ⟨255, 165, 0, 255⟩), ("purple", ⟨128, 0, 128, 255⟩),
   ("pink", ⟨255, 192, 203, 255⟩), ("brown", ⟨165, 42, 42, 255⟩)]

/-- Table lookup used by `parseNamedColor` after lower-casing. -/
def lookupNamed (cs : List Char) : List (String × RGBA) → Option RGBA
  | [] => none
  | (n, c) :: t => if n.data = cs then some c else lookupNamed cs t

/-- `parseNamedColor` from `value_parsers.go`. -/
def parseNamedColor (cs : List Char) : Option RGBA :=
  lookupNamed (lowerChars cs) namedColors

/-- One-or-more separator characters (`[\s,]+` in the rgb regex); returns
the remainder or `none` when no separator is present. -/
def skipSeps1 (cs : List Char) : Option (List Char) :=
  match cs with
  | c :: t =>
      if isSpaceChar c ∨ c = ',' then some (skipSepsRest t) else none
  | [] => none
where
  /-- Consumes the remaining separator characters greedily. -/
  skipSepsRest : List Char → List Char
    | [] => []
    | c :: t => if isSpaceChar c ∨ c = ',' then skipSepsRest t else c :: t

/-- A run of decimal digits and the remainder (`\d+`). -/
def spanDigits (cs : List Char) : List Char × List Char :=
  cs.span Char.isDigit

/-- The numeric alpha argument of the rgb regex: `\d+(?:\.\d+)?`, returned
as an exact rational together with the remainder. -/
def parseAlphaNumber (cs : List Char) : Option (ℚ × List Char) :=
  match spanDigits cs with
  | ([], _) => none
  | (ds, rest) =>
      match rest with
      | '.' :: t =>
          match spanDigits t with
          | ([], _) => some ((digitsVal ds : ℚ), rest)
          | (fs, rest2) =>
              some ((digitsVal ds : ℚ) + (digitsVal fs : ℚ) / 10 ^ fs.length, rest2)
      | _ => some ((digitsVal ds : ℚ), rest)

/-- `parseRGBColor` from `value_parsers.go`. The Go code matches the regex
`rgba?\(\s*(\d+)[\s,]+(\d+)[\s,]+(\d+)(?:[\s,]+(\d+(?:\.\d+)?))?\s*\)`
with `FindStringSubmatch` and converts the captured channels; this
embedding implements the same grammar as a recursive-descent scanner
anchored at the `rgb` prefix its only caller guarantees. An alpha capture
`≤ 1.0` is scaled by 255, a larger one is taken as an integer count, and
every channel is clamped to 255; Go `int(float)` truncation is `ratTrunc`. -/
def parseRGBColor (cs0 : List Char) : Except String RGBA :=
  let failRGB : Except String RGBA := .error "invalid rgb/rgba format"
  let afterHead : Option (List Char) :=
    match cs0 with
    | 'r' :: 'g' :: 'b' :: 'a' :: '(' :: t => some t
    | 'r' :: 'g' :: 'b' :: '(' :: t => some t
    | _ => none
  match afterHead with
  | none => failRGB
  | some t0 =>
    match spanDigits (skipWs t0) with
    | ([], _) => failRGB
    | (d1, r1) =>
      match skipSeps1 r1 with
      | none => failRGB
      | some r2 =>
        match spanDigits r2 with
        | ([], _) => failRGB
        | (d2, r3) =>
          match skipSeps1 r3 with
          | none => failRGB
          | some r4 =>
            match spanDigits r4 with
            | ([], _) => failRGB
            | (d3, r5) =>
              let alphaAttempt : Option (ℚ × List Char) :=
                match skipSeps1 r5 with
                | none => none
                | some r6 => parseAlphaNumber r6
              let finish : Option ℚ × List Char → Except String RGBA :=
                fun (alphaQ, rest) =>
                  match skipWs rest with
                  | ')' :: _ =>
                      let r := digitsVal d1
                      let g := digitsVal d2
                      let b := digitsVal d3
                      let a : ℤ :=
                        match alphaQ with
                        | none => 255
                        | some q => if q ≤ 1 then ratTrunc (q * 255) else ratTrunc q
                      .ok ⟨min r 255, min g 255, min b 255, (min a 255).toNat⟩
                  | _ => failRGB
              match alphaAttempt with
              | some (q, rest) => finish (some q, rest)
              | none => finish (none, r5)

/-- `parseBackgroundColor` from `value_parsers.go`: URL-decode, then hex,
then the named table, then `rgb(`/`rgba(`. -/
def parseBackgroundColor (value : String) : Except String GoColor :=
  match queryUnescapeChars value.data with
  | none => .error "failed to decode background color value"
  | some decoded =>
      if hasPrefixChars decoded ['#'] then
        (parseHexColor decoded).map .rgba
      else
        match parseNamedColor decoded with
        | some c => .ok (.rgba c)
        | none =>
            if hasPrefixChars decoded ['r', 'g', 'b'] then
              (parseRGBColor decoded).map .rgba
            else .error "unsupported color format"

/-! ## Scalar value parsers (`value_parsers.go`) -/

/-- `parseFloatValue`: empty, non-numeric or out-of-range input silently
falls back to the caller-supplied default. -/
def parseFloatValue (value : String) (lo hi dflt : ℚ) : ℚ :=
  if value.data = [] then dflt
  else
    match parseDecimal value with
    | none => dflt
    | some parsed => if parsed < lo ∨ hi < parsed then dflt else parsed

/-- `parseIntValue`: empty, non-numeric or out-of-range input is an
error. -/
def parseIntValue (value : String) (lo hi : ℤ) : Except String ℤ :=
  if value.data = [] then .error "value cannot be empty"
  else
    match goAtoi value with
    | none => .error "value must be a valid integer"
    | some parsed =>
        if parsed < lo ∨ hi < parsed then .error "value out of range"
        else .ok parsed

/-- `parseFormatValue`: trim, lower-case, then the three supported
formats. -/
def parseFormatValue (value : String) : Except String String :=
  let format := lowerChars (trimSpaceChars value.data)
  if format = "jpg".data ∨ format = "jpeg".data then .ok "jpeg"
  else if format = "png".data then .ok "png"
  else if format = "webp".data then .ok "webp"
  else .error "unsupported format"

/-- `parseRotateAngle`: named shortcuts first, then numeric parsing with
normalization into `[0,360)` by Go `math.Mod` (truncated remainder)
followed by a `+360` fix-up for negatives. The non-fatal warning about
non-multiple-of-45 angles is not modelled. -/
def parseRotateAngle (value : String) : Except String ℚ :=
  let t := lowerChars (trimSpaceChars value.data)
  if t = "90".data ∨ t = "cw".data ∨ t = "right".data then .ok 90
  else if t = "180".data ∨ t = "flip".data then .ok 180
  else if t = "270".data ∨ t = "-90".data ∨ t = "ccw".data ∨ t = "left".data then .ok 270
  else if t = "0".data then .ok 0
  else
    match parseDecimal value with
    | none => .error "rotate angle must be a valid number or shortcut"
    | some floatVal =>
        let angle := floatVal - 360 * (ratTrunc (floatVal / 360) : ℚ)
        .ok (if angle < 0 then angle + 360 else angle)

/-! ## Destination descriptor and operations (`part_003`, `base_transform.go`) -/

/-- The `TransformationOption` enum. -/
inductive TransformationOption where
  | flip | blur | brightness | contrast | fit | gamma | rotate
  | saturation | sharpen | background | width | height | format
  | quality | borderRadius
  deriving DecidableEq, Repr

/-- The `DestinationImage` descriptor. -/
structure DestinationImage where
  bgColor : Option GoColor
  width : ℤ
  height : ℤ
  format : String
  quality : ℤ
  deriving DecidableEq, Repr

/-- The descriptor `GetContextFromString` seeds before reading any option
(`part_003` lines 51–57): transparent background, the source raster's
dimensions and decoded format, quality 100. -/
def initialDestination (srcW srcH : ℤ) (srcFormat : String) : DestinationImage :=
  ⟨some .transparentStd, srcW, srcH, srcFormat, 100⟩

/-! ## Filters -/

/-- One built pixel operation: the repository's own filters
(`scaleDown`, `cropFit`, `padFit`, `borderRadius`) carry their parsed
parameters, the `gift` library filters are represented by constructor
plus arguments. -/
inductive Filter where
  | flipH
  | flipV
  | gaussianBlur (sigma : ℚ)
  | brightness (pct : ℚ)
  | contrast (pct : ℚ)
  | resizeToFit (w h : ℤ)
  | resize (w h : ℤ)
  | resizeToFill (w h : ℤ)
  | scaleDown (w h : ℤ)
  | cropFit (w h : ℤ)
  | padFit (w h : ℤ) (bg : Option GoColor)
  | gamma (v : ℚ)
  | rotate (angle : ℚ)
  | saturation (pct : ℚ)
  | unsharpMask (sigma amount threshold : ℚ)
  | borderRadius (tl tr bl br : BorderRadiusValue)
  deriving DecidableEq, Repr

/-- The six valid fit mode names of `createFitFilter`. -/
def validFitModes : List (List Char) :=
  ["scaledown".data, "contain".data, "cover".data, "crop".data, "pad".data, "squeeze".data]

/-- `createFitFilter` from `part_005`: validates the mode name, requires at
least one dimension, then dispatches per mode exactly as the Go switch
does (including its fall-through `unsupported fit mode` error). -/
def createFitFilter (value : String) (destination : DestinationImage) :
    Except String Filter :=
  let mode := trimSpaceChars value.data
  if ¬ mode ∈ validFitModes then .error "invalid fit mode"
  else
    let w := destination.width
    let h := destination.height
    if w = 0 ∧ h = 0 then .error "width and/or height must be specified for fit operation"
    else if mode = "contain".data then
      if 0 < w ∧ 0 < h then .ok (.resizeToFit w h)
      else if 0 < w then .ok (.resize w 0)
      else if 0 < h then .ok (.resize 0 h)
      else .error "unsupported fit mode"
    else if mode = "cover".data then
      if 0 < w ∧ 0 < h then .ok (.resizeToFill w h)
      else .error "cover mode requires both width and height"
    else if mode = "squeeze".data then
      if 0 < w ∧ 0 < h then .ok (.resize w h)
      else .error "squeeze mode requires both width and height"
    else if mode = "scaledown".data then
      if 0 < w ∧ 0 < h then .ok (.scaleDown w h)
      else if 0 < w then .ok (.scaleDown w 0)
      else if 0 < h then .ok (.scaleDown 0 h)
      else .error "unsupported fit mode"
    else if mode = "crop".data then
      if 0 < w ∧ 0 < h then .ok (.cropFit w h)
      else .error "crop mode requires both width and height"
    else if mode = "pad".data then
      if 0 < w ∧ 0 < h then .ok (.padFit w h destination.bgColor)
      else .error "pad mode requires both width and height"
    else .error "unsupported fit mode"

/-- `createBorderRadiusFilter` (`filter_border_radius.go`): empty check,
then the radius value parser; a parse error aborts, otherwise all four
corners share the one parsed value. The `(none, none)` case cannot be
produced by `parseBorderRadiusValue` but is required for exhaustiveness. -/
def createBorderRadiusFilter (value : String) : Except String Filter :=
  if value.data = [] then .error "border radius value cannot be empty"
  else
    match parseBorderRadiusValue value with
    | (_, some e) => .error e
    | (some radii, none) => .ok (.borderRadius radii radii radii radii)
    | (none, none) => .error "border radius value missing"

/-! ## Filter chain builder (`createFilters`, `part_003` / `getFilters`,
`base_transform.go`)

The Go code ranges over a `map[TransformationOption]string`; Go leaves map
iteration order unspecified, so the embedding takes the iteration sequence
as an explicit list of key/value pairs standing for one run's order. -/

/-- One step of the `for t, values := range ...` loop body: appends the
filters produced for one map entry, or fails. Descriptor-directed keys
(`width`, …) never reach this map in the Go code; they fall into the
logging `default` branch, which appends nothing. -/
def applyTransformation (destination : DestinationImage) (acc : List Filter)
    (t : TransformationOption) (values : String) : Except String (List Filter) :=
  match t with
  | .flip =>
      if values = "h" then .ok (acc ++ [.flipH])
      else if values = "v" then .ok (acc ++ [.flipV])
      else if values = "hv" ∨ values = "vh" then .ok (acc ++ [.flipH, .flipV])
      else .ok acc
  | .blur => .ok (acc ++ [.gaussianBlur (parseFloatValue values 1 250 1)])
  | .brightness => .ok (acc ++ [.brightness (parseFloatValue values (-100) 100 0)])
  | .contrast => .ok (acc ++ [.contrast (parseFloatValue values (-100) 100 0)])
  | .fit =>
      match createFitFilter values destination with
      | .error e => .error e
      | .ok f => .ok (acc ++ [f])
  | .gamma => .ok (acc ++ [.gamma (parseFloatValue values 0 2 0)])
  | .rotate =>
      match parseRotateAngle values with
      | .error e => .error e
      | .ok a => .ok (acc ++ [.rotate a])
  | .saturation => .ok (acc ++ [.saturation (parseFloatValue values (-100) 500 0)])
  | .sharpen =>
      .ok (acc ++ [.unsharpMask 1 (parseFloatValue values (1/2) (3/2) (1/2)) 0])
  | .borderRadius =>
      match createBorderRadiusFilter values with
      | .error e => .error e
      | .ok f => .ok (acc ++ [f])
  | _ => .ok acc

/-- The loop of `createFilters` over one iteration order of the map. -/
def createFiltersLoop (destination : DestinationImage) :
    List (TransformationOption × String) → List Filter → Except String (List Filter)
  | [], acc => .ok acc
  | (t, values) :: rest, acc =>
      match applyTransformation destination acc t values with
      | .error e => .error e
      | .ok acc2 => createFiltersLoop destination rest acc2

/-- `createFilters`: when the descriptor has a dimension and the map holds
no `fit` entry, a `crop`-mode fit filter is built first; then the map
entries are processed in the given iteration order. -/
def createFilters (iter : List (TransformationOption × String))
    (destination : DestinationImage) : Except String (List Filter) :=
  let hasDimensions := 0 < destination.width ∨ 0 < destination.height
  let hasFit := (iter.map Prod.fst).contains .fit
  if hasDimensions ∧ ¬ hasFit then
    match createFitFilter "crop" destination with
    | .error _ => .error "failed to create default fit filter"
    | .ok f => createFiltersLoop destination iter [f]
  else createFiltersLoop destination iter []

/-! ## Option parsing (`GetContextFromString`, `part_003`) -/

/-- `processOption`: split one token on `=` (exactly two parts), trim both,
map the key to its `TransformationOption`. -/
def processOption (optStr : List Char) : Except String (TransformationOption × String) :=
  match splitOnChar '=' optStr with
  | [k, v] =>
      let key := trimSpaceChars k
      let value := String.mk (trimSpaceChars v)
      if key = "flip".data then .ok (.flip, value)
      else if key = "blur".data then .ok (.blur, value)
      else if key = "brightness".data then .ok (.brightness, value)
      else if key = "contrast".data then .ok (.contrast, value)
      else if key = "fit".data then .ok (.fit, value)
      else if key = "gamma".data then .ok (.gamma, value)
      else if key = "rotate".data then .ok (.rotate, value)
      else if key = "saturation".data then .ok (.saturation, value)
      else if key = "sharpen".data then .ok (.sharpen, value)
      else if key = "background".data then .ok (.background, value)
      else if key = "width".data then .ok (.width, value)
      else if key = "height".data then .ok (.height, value)
      else if key = "format".data then .ok (.format, value)
      else if key = "quality".data then .ok (.quality, value)
      else if key = "radius".data then .ok (.borderRadius, value)
      else .error "unknown option"
  | _ => .error "invalid option format"

/-- Insert-or-overwrite into the assoc list standing for the Go map
`trValues` (duplicate keys collapse to the last value seen). -/
def upsertOption (l : List (TransformationOption × String))
    (t : TransformationOption) (v : String) : List (TransformationOption × String) :=
  if (l.map Prod.fst).contains t then
    l.map (fun p => if p.1 = t then (t, v) else p)
  else l ++ [(t, v)]

/-- The option-dispatch of `GetContextFromString`: descriptor keys mutate
the descriptor through their parsers, everything else lands in the
operation map. -/
def dispatchOption (st : DestinationImage × List (TransformationOption × String))
    (t : TransformationOption) (v : String) :
    Except String (DestinationImage × List (TransformationOption × String)) :=
  let (d, m) := st
  match t with
  | .background =>
      match parseBackgroundColor v with
      | .error _ => .error "invalid background color"
      | .ok c => .ok ({ d with bgColor := some c }, m)
  | .width =>
      match parseIntValue v 1 10000 with
      | .error _ => .error "invalid width"
      | .ok n => .ok ({ d with width := n }, m)
  | .height =>
      match parseIntValue v 1 10000 with
      | .error _ => .error "invalid height"
      | .ok n => .ok ({ d with height := n }, m)
  | .format =>
      match parseFormatValue v with
      | .error _ => .error "invalid format"
      | .ok f => .ok ({ d with format := f }, m)
  | .quality =>
      match parseIntValue v 1 100 with
      | .error _ => .error "invalid quality"
      | .ok n => .ok ({ d with quality := n }, m)
  | _ => .ok (d, upsertOption m t v)

/-- The token loop of `GetContextFromString`. -/
def optionsLoop : List (List Char) →
    DestinationImage × List (TransformationOption × String) →
    Except String (DestinationImage × List (TransformationOption × String))
  | [], st => .ok st
  | optStr :: rest, st =>
      match processOption optStr with
      | .error e => .error e
      | .ok (t, v) =>
          match dispatchOption st t v with
          | .error e => .error e
          | .ok st2 => optionsLoop rest st2

/-- `GetContextFromString` up to (but not including) the final
`createFilters` call: splits the option string on `,`, processes every
token, and returns the descriptor together with the contents of the
operation map in insertion order. The caller then runs `createFilters`
under some iteration order of that map. -/
def getContextParse (optionsStr : String) (srcW srcH : ℤ) (srcFormat : String) :
    Except String (DestinationImage × List (TransformationOption × String)) :=
  optionsLoop (splitOnChar ',' optionsStr.data)
    (initialDestination srcW srcH srcFormat, [])

/-! ## Fit filter bounds (`part_005`) -/

/-- `scaleDownFilter.Bounds`: never scales up; Go float arithmetic is
exact-rational here and `int(...)` is `ratTrunc`. -/
def scaleDownBounds (fw fh srcW srcH : ℤ) : ℤ × ℤ :=
  if fw = 0 ∧ fh = 0 then (srcW, srcH)
  else if 0 < fw ∧ 0 < fh then
    if srcW ≤ fw ∧ srcH ≤ fh then (srcW, srcH)
    else
      let scale : ℚ := min ((fw : ℚ) / (srcW : ℚ)) ((fh : ℚ) / (srcH : ℚ))
      (ratTrunc ((srcW : ℚ) * scale), ratTrunc ((srcH : ℚ) * scale))
  else if 0 < fw then
    if srcW ≤ fw then (srcW, srcH)
    else (fw, ratTrunc ((srcH : ℚ) * ((fw : ℚ) / (srcW : ℚ))))
  else
    if srcH ≤ fh then (srcW, srcH)
    else (ratTrunc ((srcW : ℚ) * ((fh : ℚ) / (srcH : ℚ))), fh)

/-- `cropFilter.Bounds`: always the requested rectangle. -/
def cropBounds (fw fh srcW srcH : ℤ) : ℤ × ℤ :=
  let _ := (srcW, srcH)
  (fw, fh)

/-- `padFilter.Bounds`: always the requested rectangle. -/
def padBounds (fw fh srcW srcH : ℤ) : ℤ × ℤ :=
  let _ := (srcW, srcH)
  (fw, fh)

/-- Modelled from the spec and the `gift` library contract used by `cover`
(`gift.ResizeToFill(w, h, …)` with both dimensions positive): the output
bounds are exactly the requested rectangle. -/
def resizeToFillBounds (fw fh srcW srcH : ℤ) : ℤ × ℤ :=
  let _ := (srcW, srcH)
  (fw, fh)

/-- Modelled from the spec and the `gift` library contract used by
`squeeze` (`gift.Resize(w, h, …)` with both dimensions positive): the
output bounds are exactly the requested rectangle. -/
def resizeExactBounds (fw fh srcW srcH : ℤ) : ℤ × ℤ :=
  let _ := (srcW, srcH)
  (fw, fh)

/-! ## Pad draw (`padFilter.Draw`, `part_005`) -/

/-- The color `padFilter.Draw` paints on every destination pixel before
overlaying the fitted source: the filter's stored background, or
`color.White` only when that stored value is `nil`. -/
def padFillColor (bg : Option GoColor) : GoColor :=
  match bg with
  | none => .whiteStd
  | some c => c

/-- One destination pixel of `padFilter.Draw`, with the fitted temporary
image's bounds `tempW × tempH` and pixels `temp` given: pixels under the
centered overlay come from the temporary image, every other pixel keeps
the background fill. -/
def padDrawPixel (fw fh : ℤ) (bg : Option GoColor) (tempW tempH : ℤ)
    (temp : ℤ → ℤ → RGBA) (x y : ℤ) : RGBA :=
  let offX := (fw - tempW) / 2
  let offY := (fh - tempH) / 2
  if offX ≤ x ∧ x < offX + tempW ∧ offY ≤ y ∧ y < offY + tempH then
    temp (x - offX) (y - offY)
  else goColorToRGBA (padFillColor bg)

/-! ## Border-radius draw (`filter_border_radius.go`) -/

/-- The four stored corner records of a `borderRadiusFilter`. In Go all
four point at the one parsed value, but `Draw` reads and writes each field
through the pointer, so the embedding carries the four records the struct
declares. -/
structure BorderRadiusFilterState where
  tl : BorderRadiusValue
  tr : BorderRadiusValue
  bl : BorderRadiusValue
  br : BorderRadiusValue
  deriving DecidableEq, Repr

/-- The resolution `Draw` performs on one stored record: percent converts
against `min(W,H)` and drops the percent flag, then the value clamps to
`min(W,H)/2`. -/
def resolveRadius (v : BorderRadiusValue) (minDim maxRadius : ℚ) : BorderRadiusValue :=
  let v1 : BorderRadiusValue :=
    if v.isPercent then ⟨v.value / 100 * minDim, false⟩ else v
  ⟨min v1.value maxRadius, v1.isPercent⟩

/-- The stored state of the filter after `Draw` has run on a `w × h`
raster: `Draw` writes the resolved values back into the struct fields
(lines 54–73 of `filter_border_radius.go`). -/
def drawResolveRadii (f : BorderRadiusFilterState) (w h : ℕ) : BorderRadiusFilterState :=
  let minDim : ℚ := min (w : ℚ) (h : ℚ)
  let maxRadius := minDim / 2
  ⟨resolveRadius f.tl minDim maxRadius, resolveRadius f.tr minDim maxRadius,
   resolveRadius f.bl minDim maxRadius, resolveRadius f.br minDim maxRadius⟩

/-- The corner-region classification of `calculatePixelAlpha`: the
radius and circle center of the corner box containing pixel `(x, y)`, or
`none` for the non-corner region. The `else if` chain is mirrored in
order. -/
def cornerCircle (f : BorderRadiusFilterState) (x y w h : ℕ) : Option (ℚ × ℚ × ℚ) :=
  let fx : ℚ := x
  let fy : ℚ := y
  let fw : ℚ := w
  let fh : ℚ := h
  if fx < f.tl.value ∧ fy < f.tl.value then
    some (f.tl.value, f.tl.value, f.tl.value)
  else if fw - f.tr.value ≤ fx ∧ fy < f.tr.value then
    some (f.tr.value, fw - f.tr.value, f.tr.value)
  else if fw - f.br.value ≤ fx ∧ fh - f.br.value ≤ fy then
    some (f.br.value, fw - f.br.value, fh - f.br.value)
  else if fx < f.bl.value ∧ fh - f.bl.value ≤ fy then
    some (f.bl.value, f.bl.value, fh - f.bl.value)
  else none

/-- The squared Euclidean distance from pixel `(x, y)` to a circle
center — the argument of `math.Sqrt` in `calculatePixelAlpha`. -/
def distSq (x y : ℕ) (cx cy : ℚ) : ℚ :=
  ((x : ℚ) - cx) ^ 2 + ((y : ℚ) - cy) ^ 2

/-- The alpha `calculatePixelAlpha` computes from the Euclidean distance
inside a corner box: opaque within the radius, with the one-pixel
anti-aliasing band `radius−1 ≤ distance ≤ radius` interpolated by
`uint8((1 − (distance − (radius−1))) * 255)` (Go float-to-int
truncation), transparent beyond the radius. -/
def alphaFromDistance (distance radius : ℚ) : ℕ :=
  if distance ≤ radius then
    if radius - 1 ≤ distance then
      (ratTrunc ((1 - (distance - (radius - 1))) * 255)).toNat
    else 255
  else 0

/-- `calculatePixelAlpha` with the (irrational-valued) `math.Sqrt` result
supplied by the caller as `d`: the non-corner region is fully opaque,
a corner box defers to `alphaFromDistance`. Theorems tie `d` to the pixel
through `distSq`. -/
def calculatePixelAlphaAt (f : BorderRadiusFilterState) (x y w h : ℕ) (d : ℚ) : ℕ :=
  match cornerCircle f x y w h with
  | none => 255
  | some (radius, _, _) => alphaFromDistance d radius

/-! ## Template compositor (`base_template.go`, `templatesources/base.go`) -/

/-- The attribute record of a template node (`models.Attrs`; fields the
compositor never touches are elided). -/
structure Attrs where
  width : ℤ
  height : ℤ
  x : ℚ
  y : ℚ
  scaleX : ℚ
  scaleY : ℚ
  fill : String
  text : String
  fontSize : ℚ
  path : String
  deriving DecidableEq, Repr

/-- A template scene-graph node (`models.Node`). -/
structure Node where
  className : String
  attrs : Attrs
  children : List Node

/-- The canvas-setup step of `RenderTemplate` (`base_template.go`
lines 38–41): both canvas dimensions are read from the root's *width*
attribute, and the size check rejects anything outside `(0, 2048]`. -/
def canvasSetup (root : Node) : Except String (ℤ × ℤ) :=
  let width := root.attrs.width
  let height := root.attrs.width
  if width ≤ 0 ∨ height ≤ 0 ∨ 2048 < width ∨ 2048 < height then
    .error "invalid canvas size"
  else .ok (width, height)

/-- The opening template delimiter character. -/
def lbrace : Char := Char.ofNat 123

/-- The closing template delimiter character. -/
def rbrace : Char := Char.ofNat 125

/-- Variable lookup in the supplied map. -/
def lookupVar : List (String × String) → String → Option String
  | [], _ => none
  | (k, v) :: t, key => if k = key then some v else lookupVar t key

/-- Models one action of Go `text/template` for the fragment the templates
use: `.key` renders the map entry, a missing key renders `<no value>`
(the package's default `missingkey` behavior), and any other action body —
in particular a bare identifier such as `name`, which `text/template`
parses as a call to an undefined function — fails at parse time. -/
def evalTemplateAction (vars : List (String × String)) (body : List Char) :
    Except String (List Char) :=
  match trimSpaceChars body with
  | '.' :: key =>
      if key = [] then .error "unsupported action"
      else
        match lookupVar vars (String.mk key) with
        | some v => .ok v.data
        | none => .ok "<no value>".data
  | _ => .error "function not defined"

mutual

/-- Models Go `text/template` `Parse` + `Execute` on the raw template text
(`substituteVarsAndUnmarshalToRootNode`, `templatesources/base.go`): plain
text copies through, `\x7b\x7b … \x7d\x7d` actions are evaluated by
`evalTemplateAction`, an unclosed action is a parse error. -/
def renderTemplateText (vars : List (String × String)) :
    List Char → Except String (List Char)
  | [] => .ok []
  | [c] => .ok [c]
  | a :: b :: t =>
      if a = lbrace ∧ b = lbrace then
        renderTemplateAction vars t []
      else
        match renderTemplateText vars (b :: t) with
        | .error e => .error e
        | .ok r => .ok (a :: r)

/-- Scans the body of an action up to the closing delimiter, then
evaluates it and continues with the rest of the text. -/
def renderTemplateAction (vars : List (String × String)) :
    List Char → List Char → Except String (List Char)
  | [], _ => .error "unclosed action"
  | [_], _ => .error "unclosed action"
  | d1 :: d2 :: t, acc =>
      if d1 = rbrace ∧ d2 = rbrace then
        match evalTemplateAction vars acc with
        | .error e => .error e
        | .ok v =>
            match renderTemplateText vars t with
            | .error e => .error e
            | .ok r => .ok (v ++ r)
      else renderTemplateAction vars (d2 :: t) (acc ++ [d1])

end

/-- The substitution step on a whole template string. -/
def substituteVars (data : String) (vars : List (String × String)) :
    Except String String :=
  (renderTemplateText vars data.data).map String.mk

/-! ## Claims -/

/-- C1: the spec claims the border-radius value parser errors exactly on
empty, non-numeric, out-of-range-percent or negative-pixel input and
returns the parsed `{magnitude, isPercent}` with *no* error on every
well-formed in-range input. The code does reject exactly the claimed bad
inputs (value component `none`), but its success path returns the parsed
value *together with* the unconditional error
`unexpected number of radius values`, so the error component is non-nil
for every input whatsoever — the claim's error-free success contract is
what the repository's own test `TestCreateBorderRadiusFilter` expects and
the code breaks. -/
theorem C1_radius_parser_always_errors :
    (parseBorderRadiusValue "10").1 = some ⟨10, false⟩ ∧
    (parseBorderRadiusValue "25%").1 = some ⟨25, true⟩ ∧
    (parseBorderRadiusValue "20px").1 = some ⟨20, false⟩ ∧
    (parseBorderRadiusValue "").1 = none ∧
    (parseBorderRadiusValue "abc").1 = none ∧
    (parseBorderRadiusValue "60%").1 = none ∧
    (parseBorderRadiusValue "-5").1 = none ∧
    (parseBorderRadiusValue "10").2 = some radiusSpuriousErr ∧
    ∀ s : String, ((parseBorderRadiusValue s).2).isSome = true := by
  refine ⟨?_, ?_, ?_, ?_, ?_, ?_, ?_, ?_, ?_⟩
  · norm_num +decide [parseBorderRadiusValue, parseDecimalChars, splitOnDot,
      splitOnChar, digitsVal, hasSuffixChars, dropRightChars]
  · norm_num +decide [parseBorderRadiusValue, parseDecimalChars, splitOnDot,
      splitOnChar, digitsVal, hasSuffixChars, dropRightChars]
  · norm_num +decide [parseBorderRadiusValue, parseDecimalChars, splitOnDot,
      splitOnChar, digitsVal, hasSuffixChars, dropRightChars]
  · norm_num +decide [parseBorderRadiusValue, parseDecimalChars, splitOnDot,
      splitOnChar, digitsVal, hasSuffixChars, dropRightChars]
  · norm_num +decide [parseBorderRadiusValue, parseDecimalChars, splitOnDot,
      splitOnChar, digitsVal, hasSuffixChars, dropRightChars]
  · norm_num +decide [parseBorderRadiusValue, parseDecimalChars, splitOnDot,
      splitOnChar, digitsVal, hasSuffixChars, dropRightChars]
  · norm_num +decide [parseBorderRadiusValue, parseDecimalChars, splitOnDot,
      splitOnChar, digitsVal, hasSuffixChars, dropRightChars]
  · norm_num +decide [parseBorderRadiusValue, parseDecimalChars, splitOnDot,
      splitOnChar, digitsVal, hasSuffixChars, dropRightChars, radiusSpuriousErr]
  · intro s
    unfold parseBorderRadiusValue
    dsimp only
    split
    · rfl
    · split
      · split
        · split
          · rfl
          · rfl
        · rfl
      · split
        · split
          · rfl
          · rfl
        · rfl

/-- C10: `RenderTemplate` sizes a square canvas from the root's width
attribute alone — both dimensions equal it, the height attribute is never
read — and rejects with `invalid canvas size` exactly when that width is
outside `(0, 2048]`. -/
theorem C10_canvas_square_from_width (root : Node) :
    (canvasSetup root = .error "invalid canvas size" ↔
      root.attrs.width ≤ 0 ∨ 2048 < root.attrs.width) ∧
    (∀ w h : ℤ, canvasSetup root = .ok (w, h) →
      w = root.attrs.width ∧ h = root.attrs.width) ∧
    (∀ hv : ℤ,
      canvasSetup { root with attrs := { root.attrs with height := hv } } =
        canvasSetup root) := by
  refine ⟨?_, ?_, ?_⟩
  · unfold canvasSetup
    by_cases hc : root.attrs.width ≤ 0 ∨ 2048 < root.attrs.width
    · rw [if_pos (by tauto)]
      simp [hc]
    · rw [if_neg (by tauto)]
      simp [hc]
  · intro w h hok
    unfold canvasSetup at hok
    by_cases hc : root.attrs.width ≤ 0 ∨ 2048 < root.attrs.width
    · rw [if_pos (by tauto)] at hok
      exact absurd hok (by simp)
    · rw [if_neg (by tauto)] at hok
      simp only [Except.ok.injEq, Prod.mk.injEq] at hok
      exact ⟨hok.1.symm, hok.2.symm⟩
  · intro hv
    rfl

/-- Witness for C10 at a concrete root node of width 100 and unrelated
height 7. -/
theorem C10_canvas_square_from_width_witness :
    (100 : ℤ) = (⟨"Stage", ⟨100, 7, 0, 0, 1, 1, "", "", 24, ""⟩, []⟩ : Node).attrs.width ∧
    (100 : ℤ) = (⟨"Stage", ⟨100, 7, 0, 0, 1, 1, "", "", 24, ""⟩, []⟩ : Node).attrs.width :=
  (C10_canvas_square_from_width _).2.1 100 100 (by norm_num [canvasSetup])

/-- C7, counterexample: the claim maps `rgba(0,0,0,0.5)` to alpha 128, but
Go computes `int(0.5 * 255) = int(127.5)` by truncation, which is 127. -/
theorem C7_alpha_half_counterexample :
    parseBackgroundColor "rgba(0,0,0,0.5)" = .ok (.rgba ⟨0, 0, 0, 127⟩) ∧
    parseBackgroundColor "rgba(0,0,0,0.5)" ≠ .ok (.rgba ⟨0, 0, 0, 128⟩) := by
  have h : parseBackgroundColor "rgba(0,0,0,0.5)" = .ok (.rgba ⟨0, 0, 0, 127⟩) := by
    norm_num +decide [parseBackgroundColor, queryUnescapeChars, hasPrefixChars,
      parseNamedColor, lookupNamed, lowerChars, lowerChar, namedColors,
      parseRGBColor, skipWs, spanDigits, skipSeps1, skipSeps1.skipSepsRest,
      parseAlphaNumber, digitsVal, isSpaceChar, ratTrunc, Except.map]
  exact ⟨h, by rw [h]; decide⟩

/-- C7 as amended: `#fff` → opaque white, `red` → opaque red,
`notacolor` → error, a decimal alpha in `[0,1]` scales by 255 *with Go
truncation* so `rgba(0,0,0,0.5)` → alpha 127 (not 128), an integer alpha
is taken as a 0–255 count, and channels above 255 clamp down to 255. -/
theorem C7_color_parser_values :
    parseBackgroundColor "#fff" = .ok (.rgba ⟨255, 255, 255, 255⟩) ∧
    parseBackgroundColor "red" = .ok (.rgba ⟨255, 0, 0, 255⟩) ∧
    parseBackgroundColor "rgba(0,0,0,0.5)" = .ok (.rgba ⟨0, 0, 0, 127⟩) ∧
    parseBackgroundColor "rgba(0,0,0,128)" = .ok (.rgba ⟨0, 0, 0, 128⟩) ∧
    parseBackgroundColor "rgb(300,0,0)" = .ok (.rgba ⟨255, 0, 0, 255⟩) ∧
    parseBackgroundColor "notacolor" = .error "unsupported color format" := by
  refine ⟨by decide, by decide, ?_, ?_, ?_, by decide⟩
  · norm_num +decide [parseBackgroundColor, queryUnescapeChars, hasPrefixChars,
      parseNamedColor, lookupNamed, lowerChars, lowerChar, namedColors,
      parseRGBColor, skipWs, spanDigits, skipSeps1, skipSeps1.skipSepsRest,
      parseAlphaNumber, digitsVal, isSpaceChar, ratTrunc, Except.map]
  · norm_num +decide [parseBackgroundColor, queryUnescapeChars, hasPrefixChars,
      parseNamedColor, lookupNamed, lowerChars, lowerChar, namedColors,
      parseRGBColor, skipWs, spanDigits, skipSeps1, skipSeps1.skipSepsRest,
      parseAlphaNumber, digitsVal, isSpaceChar, ratTrunc, Except.map]
  · norm_num +decide [parseBackgroundColor, queryUnescapeChars, hasPrefixChars,
      parseNamedColor, lookupNamed, lowerChars, lowerChar, namedColors,
      parseRGBColor, skipWs, spanDigits, skipSeps1, skipSeps1.skipSepsRest,
      parseAlphaNumber, digitsVal, isSpaceChar, ratTrunc, Except.map]

/-- C9, counterexample: the claim's scenario substitutes a bare
`\x7b\x7bname\x7d\x7d` token from the map, but Go `text/template` parses a
bare identifier as a call to an undefined function and fails before any
substitution, so the render errors instead of producing `Ada`. -/
theorem C9_bare_token_counterexample :
    substituteVars "\x7b\x7bname\x7d\x7d" [("name", "Ada")] =
      .error "function not defined" ∧
    substituteVars "\x7b\x7bname\x7d\x7d" [("name", "Ada")] ≠ .ok "Ada" := by
  have he : substituteVars "\x7b\x7bname\x7d\x7d" [("name", "Ada")] =
      Except.error "function not defined" := by decide
  refine ⟨he, ?_⟩
  rw [he]
  decide

/-- C9 as amended: substitution runs once on the raw text strictly before
JSON parsing, but the token form is `\x7b\x7b.key\x7d\x7d`; a dotted token
renders the map entry (so a template containing `\x7b\x7b.name\x7d\x7d`
with `name ↦ Ada` draws the literal `Ada`), a *bare* identifier token is a
template parse error, a token whose key is absent renders as `<no value>`
rather than verbatim, and substituted values are not re-scanned (the
substitution happens exactly once). -/
theorem C9_template_substitution :
    substituteVars "\x7b\x7b.name\x7d\x7d" [("name", "Ada")] = .ok "Ada" ∧
    substituteVars "pre \x7b\x7b.name\x7d\x7d post" [("name", "Ada")] =
      .ok "pre Ada post" ∧
    substituteVars "\x7b\x7bname\x7d\x7d" [("name", "Ada")] =
      .error "function not defined" ∧
    substituteVars "\x7b\x7b.missing\x7d\x7d" [("name", "Ada")] = .ok "<no value>" ∧
    substituteVars "\x7b\x7b.a\x7d\x7d" [("a", "\x7b\x7b.b\x7d\x7d"), ("b", "X")] =
      .ok "\x7b\x7b.b\x7d\x7d" := by
  refine ⟨by decide, by decide, by decide, by decide, by decide⟩

/-- C6, counterexample: the claim says the four stored
`{magnitude, isPercent}` records are unchanged after `Draw`; rendering a
25%-radius filter on a 100×100 raster rewrites every record to the
resolved pixel value `{25, false}`. -/
theorem C6_draw_mutates_counterexample :
    drawResolveRadii ⟨⟨25, true⟩, ⟨25, true⟩, ⟨25, true⟩, ⟨25, true⟩⟩ 100 100 =
      ⟨⟨25, false⟩, ⟨25, false⟩, ⟨25, false⟩, ⟨25, false⟩⟩ ∧
    drawResolveRadii ⟨⟨25, true⟩, ⟨25, true⟩, ⟨25, true⟩, ⟨25, true⟩⟩ 100 100 ≠
      ⟨⟨25, true⟩, ⟨25, true⟩, ⟨25, true⟩, ⟨25, true⟩⟩ := by
  have h : drawResolveRadii ⟨⟨25, true⟩, ⟨25, true⟩, ⟨25, true⟩, ⟨25, true⟩⟩ 100 100 =
      ⟨⟨25, false⟩, ⟨25, false⟩, ⟨25, false⟩, ⟨25, false⟩⟩ := by
    norm_num [drawResolveRadii, resolveRadius, min_def]
  refine ⟨h, ?_⟩
  rw [h]
  intro heq
  exact absurd (congrArg (fun s => s.tl.isPercent) heq) (by decide)

/-- Idempotence of one resolved record under re-resolution with the same
raster geometry. -/
theorem resolveRadius_idem (v : BorderRadiusValue) (minDim maxRadius : ℚ) :
    resolveRadius (resolveRadius v minDim maxRadius) minDim maxRadius =
      resolveRadius v minDim maxRadius := by
  rcases v with ⟨val, pc⟩
  cases pc <;> simp [resolveRadius, min_assoc]

/-- C6 as amended: `Draw` *does* write the resolved radii back into the
filter's stored records (percent becomes clamped pixels with the flag
cleared), so a second render on the same raster size re-resolves to the
same values, but a second render on a different size resolves from the
mutated records and disagrees with a fresh render at that size. -/
theorem C6_draw_resolution_writeback :
    (∀ (f : BorderRadiusFilterState) (w h : ℕ),
      drawResolveRadii (drawResolveRadii f w h) w h = drawResolveRadii f w h) ∧
    drawResolveRadii
        (drawResolveRadii ⟨⟨25, true⟩, ⟨25, true⟩, ⟨25, true⟩, ⟨25, true⟩⟩ 100 100)
        200 200 ≠
      drawResolveRadii ⟨⟨25, true⟩, ⟨25, true⟩, ⟨25, true⟩, ⟨25, true⟩⟩ 200 200 := by
  constructor
  · intro f w h
    unfold drawResolveRadii
    simp only [resolveRadius_idem]
  · have h1 : drawResolveRadii
        (drawResolveRadii ⟨⟨25, true⟩, ⟨25, true⟩, ⟨25, true⟩, ⟨25, true⟩⟩ 100 100)
        200 200 = ⟨⟨25, false⟩, ⟨25, false⟩, ⟨25, false⟩, ⟨25, false⟩⟩ := by
      norm_num [drawResolveRadii, resolveRadius, min_def]
    have h2 : drawResolveRadii ⟨⟨25, true⟩, ⟨25, true⟩, ⟨25, true⟩, ⟨25, true⟩⟩ 200 200 =
        ⟨⟨50, false⟩, ⟨50, false⟩, ⟨50, false⟩, ⟨50, false⟩⟩ := by
      norm_num [drawResolveRadii, resolveRadius, min_def]
    rw [h1, h2]
    intro hq
    exact absurd (congrArg (fun s => s.tl.value) hq) (by norm_num)

/-- C5, counterexample: pixel `(1,2)` of a 20×20 raster with corner radius
5 lies in the top-left corner box at Euclidean distance exactly 5 from the
circle center `(5,5)` (a 3-4-5 triangle), and the code gives it mask alpha
0 — not a value strictly between 0 and 255 as the claim states for pixels
exactly on the quarter-circle boundary. -/
theorem C5_boundary_pixel_counterexample :
    cornerCircle ⟨⟨5, false⟩, ⟨5, false⟩, ⟨5, false⟩, ⟨5, false⟩⟩ 1 2 20 20 =
      some (5, 5, 5) ∧
    (5 : ℚ) ^ 2 = distSq 1 2 5 5 ∧
    calculatePixelAlphaAt ⟨⟨5, false⟩, ⟨5, false⟩, ⟨5, false⟩, ⟨5, false⟩⟩ 1 2 20 20 5
      = 0 ∧
    ¬ (0 < calculatePixelAlphaAt ⟨⟨5, false⟩, ⟨5, false⟩, ⟨5, false⟩, ⟨5, false⟩⟩
          1 2 20 20 5) := by
  have hc : cornerCircle ⟨⟨5, false⟩, ⟨5, false⟩, ⟨5, false⟩, ⟨5, false⟩⟩ 1 2 20 20 =
      some (5, 5, 5) := by
    norm_num [cornerCircle]
  have ha : calculatePixelAlphaAt ⟨⟨5, false⟩, ⟨5, false⟩, ⟨5, false⟩, ⟨5, false⟩⟩
      1 2 20 20 5 = 0 := by
    unfold calculatePixelAlphaAt
    rw [hc]
    norm_num [alphaFromDistance, ratTrunc]
  refine ⟨hc, by norm_num [distSq], ha, ?_⟩
  rw [ha]
  norm_num

/-- C5 as amended: outside every corner box the mask alpha is 255; inside
a corner box with radius `r`, a pixel at Euclidean distance `d` from the
circle center gets alpha 255 when `d ≤ r−1`, the truncated linear
interpolation `⌊(r−d)·255⌋` when `r−1 < d ≤ r` (which reaches 255 only at
`d = r−1` and is exactly 0 — not a strictly interior value — at `d = r`),
and 0 when `d > r`; a pixel at distance 0 has alpha 255 whenever `r ≥ 1`. -/
theorem C5_mask_alpha (f : BorderRadiusFilterState) (x y w h : ℕ) (d r cx cy : ℚ) :
    (cornerCircle f x y w h = none → calculatePixelAlphaAt f x y w h d = 255) ∧
    (cornerCircle f x y w h = some (r, cx, cy) → 0 ≤ d → d ^ 2 = distSq x y cx cy →
      (d ≤ r - 1 → calculatePixelAlphaAt f x y w h d = 255) ∧
      (r - 1 < d → d ≤ r →
        calculatePixelAlphaAt f x y w h d = (⌊(r - d) * 255⌋).toNat) ∧
      (r < d → calculatePixelAlphaAt f x y w h d = 0) ∧
      (d = r → calculatePixelAlphaAt f x y w h d = 0) ∧
      (d = 0 → 1 ≤ r → calculatePixelAlphaAt f x y w h d = 255)) := by
  constructor
  · intro hn
    unfold calculatePixelAlphaAt
    rw [hn]
  · intro hc _ _
    unfold calculatePixelAlphaAt
    rw [hc]
    dsimp only
    refine ⟨?_, ?_, ?_, ?_, ?_⟩
    · intro hle
      unfold alphaFromDistance
      rw [if_pos (by linarith)]
      by_cases hb : r - 1 ≤ d
      · have hdr : d = r - 1 := le_antisymm hle hb
        rw [if_pos hb, hdr]
        norm_num [ratTrunc]
        rfl
      · rw [if_neg hb]
    · intro h1 h2
      unfold alphaFromDistance
      rw [if_pos h2, if_pos (by linarith)]
      have harg : (1 - (d - (r - 1))) * 255 = (r - d) * 255 := by ring
      rw [harg, ratTrunc_nonneg_eq_floor (by nlinarith)]
    · intro hgt
      unfold alphaFromDistance
      rw [if_neg (not_le.mpr hgt)]
    · intro heq
      subst heq
      unfold alphaFromDistance
      rw [if_pos le_rfl, if_pos (by linarith)]
      have harg : (1 - (d - (d - 1))) * 255 = 0 := by ring
      rw [harg]
      norm_num [ratTrunc]
    · intro h0d hr1
      subst h0d
      unfold alphaFromDistance
      rw [if_pos (by linarith)]
      by_cases hb : r - 1 ≤ 0
      · have hr : r = 1 := le_antisymm (by linarith) hr1
        rw [if_pos hb, hr]
        norm_num [ratTrunc]
        rfl
      · rw [if_neg hb]

/-- Witness for C5 at a concrete deep-interior pixel: pixel `(7,6)` of a
20×20 raster with corner radius 10 sits at distance 5 from the top-left
center `(10,10)` (again a 3-4-5 triangle), within `r − 1`, so its alpha
is 255. -/
theorem C5_mask_alpha_witness :
    calculatePixelAlphaAt ⟨⟨10, false⟩, ⟨10, false⟩, ⟨10, false⟩, ⟨10, false⟩⟩
      7 6 20 20 5 = 255 :=
  ((C5_mask_alpha ⟨⟨10, false⟩, ⟨10, false⟩, ⟨10, false⟩, ⟨10, false⟩⟩
      7 6 20 20 5 10 10 10).2
    (by norm_num [cornerCircle]) (by norm_num) (by norm_num [distSq])).1
    (by norm_num)

theorem ratTrunc_lt_int {x : ℚ} {n : ℤ} (h0 : 0 ≤ x) (h : x < (n : ℚ)) :
    ratTrunc x < n := by
  rw [ratTrunc_nonneg_eq_floor h0]
  exact Int.floor_lt.mpr h

/-- The shrink-only invariant of `scaleDownFilter.Bounds`. -/
theorem scaleDownBounds_le (fw fh srcW srcH : ℤ) (hsw : 1 ≤ srcW) (hsh : 1 ≤ srcH)
    (hfw : 0 ≤ fw) (hfh : 0 ≤ fh) :
    (scaleDownBounds fw fh srcW srcH).1 ≤ srcW ∧
    (scaleDownBounds fw fh srcW srcH).2 ≤ srcH := by
  have hswq : (0 : ℚ) < (srcW : ℚ) := by exact_mod_cast (by omega : (0 : ℤ) < srcW)
  have hshq : (0 : ℚ) < (srcH : ℚ) := by exact_mod_cast (by omega : (0 : ℤ) < srcH)
  have hfwq : (0 : ℚ) ≤ (fw : ℚ) := by exact_mod_cast hfw
  have hfhq : (0 : ℚ) ≤ (fh : ℚ) := by exact_mod_cast hfh
  unfold scaleDownBounds
  dsimp only
  split_ifs with h1 h2 h3 h4 h5 h6
  · exact ⟨le_refl _, le_refl _⟩
  · exact ⟨le_refl _, le_refl _⟩
  · -- both dimensions requested, source does not fit: aspect shrink
    have hs0 : 0 ≤ min ((fw : ℚ) / (srcW : ℚ)) ((fh : ℚ) / (srcH : ℚ)) :=
      le_min (div_nonneg hfwq hswq.le) (div_nonneg hfhq hshq.le)
    have hlt1 : min ((fw : ℚ) / (srcW : ℚ)) ((fh : ℚ) / (srcH : ℚ)) < 1 := by
      rcases not_and_or.mp h3 with hA | hB
      · have hwlt : (fw : ℚ) < (srcW : ℚ) := by exact_mod_cast (by omega : fw < srcW)
        exact lt_of_le_of_lt (min_le_left _ _) ((div_lt_one hswq).mpr hwlt)
      · have hhlt : (fh : ℚ) < (srcH : ℚ) := by exact_mod_cast (by omega : fh < srcH)
        exact lt_of_le_of_lt (min_le_right _ _) ((div_lt_one hshq).mpr hhlt)
    exact ⟨le_of_lt (ratTrunc_lt_int (mul_nonneg hswq.le hs0)
        (mul_lt_of_lt_one_right hswq hlt1)),
      le_of_lt (ratTrunc_lt_int (mul_nonneg hshq.le hs0)
        (mul_lt_of_lt_one_right hshq hlt1))⟩
  · exact ⟨le_refl _, le_refl _⟩
  · -- width only, source wider than the box
    have hwlt : (fw : ℚ) < (srcW : ℚ) := by exact_mod_cast (by omega : fw < srcW)
    have hrat0 : 0 ≤ (fw : ℚ) / (srcW : ℚ) := div_nonneg hfwq hswq.le
    have hrat1 : (fw : ℚ) / (srcW : ℚ) < 1 := (div_lt_one hswq).mpr hwlt
    refine ⟨by omega, ?_⟩
    exact le_of_lt (ratTrunc_lt_int (mul_nonneg hshq.le hrat0)
      (mul_lt_of_lt_one_right hshq hrat1))
  · exact ⟨le_refl _, le_refl _⟩
  · -- height only, source taller than the box
    have hhlt : (fh : ℚ) < (srcH : ℚ) := by exact_mod_cast (by omega : fh < srcH)
    have hrat0 : 0 ≤ (fh : ℚ) / (srcH : ℚ) := div_nonneg hfhq hshq.le
    have hrat1 : (fh : ℚ) / (srcH : ℚ) < 1 := (div_lt_one hshq).mpr hhlt
    refine ⟨?_, by omega⟩
    exact le_of_lt (ratTrunc_lt_int (mul_nonneg hswq.le hrat0)
      (mul_lt_of_lt_one_right hswq hrat1))

/-- C4: for every source raster (`srcW × srcH`, both ≥ 1) and requested
box (`fw × fh`, non-negative as produced by the option parser or source
seeding), the scaledown filter's bounds never exceed the source in either
dimension and are exactly the source bounds whenever the source already
fits (in its two-dimension and single-dimension forms alike), while the
crop, pad, cover (`gift.ResizeToFill`) and squeeze (`gift.Resize`) filters
produce exactly the requested `fw × fh`. -/
theorem C4_fit_bounds (fw fh srcW srcH : ℤ) (hsw : 1 ≤ srcW) (hsh : 1 ≤ srcH)
    (hfw : 0 ≤ fw) (hfh : 0 ≤ fh) :
    ((scaleDownBounds fw fh srcW srcH).1 ≤ srcW ∧
     (scaleDownBounds fw fh srcW srcH).2 ≤ srcH) ∧
    (srcW ≤ fw → srcH ≤ fh → scaleDownBounds fw fh srcW srcH = (srcW, srcH)) ∧
    (srcW ≤ fw → fh = 0 → scaleDownBounds fw fh srcW srcH = (srcW, srcH)) ∧
    (fw = 0 → srcH ≤ fh → scaleDownBounds fw fh srcW srcH = (srcW, srcH)) ∧
    cropBounds fw fh srcW srcH = (fw, fh) ∧
    padBounds fw fh srcW srcH = (fw, fh) ∧
    resizeToFillBounds fw fh srcW srcH = (fw, fh) ∧
    resizeExactBounds fw fh srcW srcH = (fw, fh) := by
  refine ⟨scaleDownBounds_le fw fh srcW srcH hsw hsh hfw hfh, ?_, ?_, ?_, rfl, rfl, rfl, rfl⟩
  · intro hw hh
    unfold scaleDownBounds
    rw [if_neg (by omega), if_pos (by omega), if_pos ⟨hw, hh⟩]
  · intro hw hz
    unfold scaleDownBounds
    rw [if_neg (by omega), if_neg (by omega), if_pos (by omega)]
    rw [if_pos hw]
  · intro hz hh
    unfold scaleDownBounds
    rw [if_neg (by omega), if_neg (by omega), if_neg (by omega)]
    rw [if_pos hh]

/-- Witness for C4: requested box 50×50 on a 100×200 source — the
scaledown bounds stay within the source. -/
theorem C4_fit_bounds_witness :
    (scaleDownBounds 50 50 100 200).1 ≤ 100 ∧
    (scaleDownBounds 50 50 100 200).2 ≤ 200 :=
  (C4_fit_bounds 50 50 100 200 (by norm_num) (by norm_num) (by norm_num)
    (by norm_num)).1

theorem extends_of_ok_append {acc suf l : List Filter}
    (h : (Except.ok (acc ++ suf) : Except String (List Filter)) = .ok l) :
    ∃ s, l = acc ++ s := ⟨suf, (Except.ok.inj h).symm⟩

theorem extends_of_ok_self {acc l : List Filter}
    (h : (Except.ok acc : Except String (List Filter)) = .ok l) :
    ∃ s, l = acc ++ s := ⟨[], by rw [List.append_nil]; exact (Except.ok.inj h).symm⟩

/-- Every successful loop-body step only appends to the accumulated
filter list. -/
theorem applyTransformation_extends (d : DestinationImage) (acc : List Filter)
    (t : TransformationOption) (v : String) (l : List Filter)
    (h : applyTransformation d acc t v = .ok l) : ∃ suf, l = acc ++ suf := by
  cases t <;> simp only [applyTransformation] at h
  case flip =>
    split_ifs at h <;>
      first
        | exact extends_of_ok_append h
        | exact extends_of_ok_self h
  case fit =>
    cases hf : createFitFilter v d with
    | error e => rw [hf] at h; exact absurd h (by simp)
    | ok f =>
        rw [hf] at h
        exact extends_of_ok_append h
  case rotate =>
    cases hf : parseRotateAngle v with
    | error e => rw [hf] at h; exact absurd h (by simp)
    | ok a =>
        rw [hf] at h
        exact extends_of_ok_append h
  case borderRadius =>
    cases hf : createBorderRadiusFilter v with
    | error e => rw [hf] at h; exact absurd h (by simp)
    | ok f =>
        rw [hf] at h
        exact extends_of_ok_append h
  all_goals
    first
      | exact extends_of_ok_append h
      | exact extends_of_ok_self h

/-- A successful run of the `createFilters` loop only appends to its
starting accumulator. -/
theorem createFiltersLoop_extends (d : DestinationImage) :
    ∀ (rest : List (TransformationOption × String)) (acc fs : List Filter),
      createFiltersLoop d rest acc = .ok fs → ∃ suf, fs = acc ++ suf := by
  intro rest
  induction rest with
  | nil =>
      intro acc fs h
      simp only [createFiltersLoop] at h
      exact ⟨[], by simpa using h.symm⟩
  | cons p rest ih =>
      intro acc fs h
      obtain ⟨t, v⟩ := p
      simp only [createFiltersLoop] at h
      cases ha : applyTransformation d acc t v with
      | error e => rw [ha] at h; exact absurd h (by simp)
      | ok acc2 =>
          rw [ha] at h
          obtain ⟨suf1, hs1⟩ := applyTransformation_extends d acc t v acc2 ha
          obtain ⟨suf2, hs2⟩ := ih acc2 fs h
          exact ⟨suf1 ++ suf2, by rw [hs2, hs1, List.append_assoc]⟩

/-- With both descriptor dimensions positive, building the default
`crop`-mode fit filter succeeds and targets exactly those dimensions. -/
theorem createFitFilter_crop (d : DestinationImage) (hw : 0 < d.width)
    (hh : 0 < d.height) :
    createFitFilter "crop" d = .ok (.cropFit d.width d.height) := by
  unfold createFitFilter
  rw [if_neg (by decide)]
  dsimp only
  rw [if_neg (by omega), if_neg (by decide), if_neg (by decide),
    if_neg (by decide), if_neg (by decide), if_pos (by decide),
    if_pos ⟨hw, hh⟩]

/-- C3: for every operation map holding no `fit` entry and every
descriptor with positive width and height (as every real request has —
explicit `width=`/`height=` options parse into `[1,10000]`, and otherwise
the descriptor keeps the source raster's positive dimensions), a
successful filter-chain build starts with the `crop`-mode fit filter on
exactly the descriptor's width and height. -/
theorem C3_default_crop_first (iter : List (TransformationOption × String))
    (d : DestinationImage) (hw : 0 < d.width) (hh : 0 < d.height)
    (hnofit : ((iter.map Prod.fst).contains TransformationOption.fit) = false) :
    (∀ fs, createFilters iter d = .ok fs →
      fs.head? = some (.cropFit d.width d.height)) ∧
    (∀ v n, parseIntValue v 1 10000 = .ok n → 0 < n) := by
  constructor
  · intro fs h
    unfold createFilters at h
    dsimp only at h
    rw [if_pos ⟨Or.inl hw, by rw [hnofit]; exact Bool.false_ne_true⟩,
      createFitFilter_crop d hw hh] at h
    dsimp only at h
    obtain ⟨suf, hs⟩ := createFiltersLoop_extends d iter
      [.cropFit d.width d.height] fs h
    rw [hs]
    rfl
  · intro v n h
    unfold parseIntValue at h
    split_ifs at h
    cases hg : goAtoi v with
    | none => rw [hg] at h; exact absurd h (by simp)
    | some parsed =>
        rw [hg] at h
        dsimp only at h
        split_ifs at h with hr
        simp only [Except.ok.injEq] at h
        omega

/-- Witness for C3: map `{blur ↦ 2}` with a 100×50 descriptor — the
successful build `[cropFit 100 50, gaussianBlur 2]` starts with the
default crop fit. -/
theorem C3_default_crop_first_witness :
    ([Filter.cropFit 100 50, Filter.gaussianBlur 2].head? =
      some (Filter.cropFit 100 50)) ∧
    (0 : ℤ) < 400 :=
  ⟨(C3_default_crop_first [(.blur, "2")]
      ⟨some .transparentStd, 100, 50, "png", 100⟩ (by norm_num) (by norm_num)
      (by decide)).1 [Filter.cropFit 100 50, Filter.gaussianBlur 2]
      (by norm_num +decide [createFilters, createFiltersLoop, applyTransformation,
        createFitFilter, trimSpaceChars, skipWs, isSpaceChar, validFitModes,
        parseFloatValue, parseDecimal, parseDecimalChars, splitOnDot, splitOnChar,
        digitsVal]),
   (C3_default_crop_first [(.blur, "2")]
      ⟨some .transparentStd, 100, 50, "png", 100⟩ (by norm_num) (by norm_num)
      (by decide)).2 "400" 400
      (by norm_num +decide [parseIntValue, goAtoi, digitsVal])⟩

/-- C2: the spec demands deterministic filter-chain building — any two
filters of one request in the same relative order on every run — but both
`createFilters` and `getFilters` range over a Go map, whose iteration
order is unspecified. Two legitimate iteration orders of the same
two-entry map `{blur ↦ 2, contrast ↦ 10}` (the lists are permutations of
each other) build different operation sequences, so blur and contrast may
apply in either relative order across runs. -/
theorem C2_filter_order_not_canonical :
    createFilters [(.blur, "2"), (.contrast, "10")]
        ⟨some .transparentStd, 100, 100, "png", 100⟩ =
      .ok [.cropFit 100 100, .gaussianBlur 2, .contrast 10] ∧
    createFilters [(.contrast, "10"), (.blur, "2")]
        ⟨some .transparentStd, 100, 100, "png", 100⟩ =
      .ok [.cropFit 100 100, .contrast 10, .gaussianBlur 2] ∧
    ([((.blur : TransformationOption), "2"), (.contrast, "10")]).Perm
      [(.contrast, "10"), (.blur, "2")] ∧
    ([Filter.cropFit 100 100, .gaussianBlur 2, .contrast 10] ≠
      [Filter.cropFit 100 100, .contrast 10, .gaussianBlur 2]) := by
  refine ⟨?_, ?_, by decide, by decide⟩
  · norm_num +decide [createFilters, createFiltersLoop, applyTransformation,
      createFitFilter, trimSpaceChars, skipWs, isSpaceChar, validFitModes,
      parseFloatValue, parseDecimal, parseDecimalChars, splitOnDot, splitOnChar,
      digitsVal]
  · norm_num +decide [createFilters, createFiltersLoop, applyTransformation,
      createFitFilter, trimSpaceChars, skipWs, isSpaceChar, validFitModes,
      parseFloatValue, parseDecimal, parseDecimalChars, splitOnDot, splitOnChar,
      digitsVal]

/-- C8, counterexample: for the request
`width=400,height=300,fit=pad` (no background option) the parsed
descriptor's background is Go's `color.Transparent` — a non-nil interface
value — so the pad filter's nil-check does not fire and an output pixel
outside the fitted 400×200 overlay (here `(399,299)`) is filled fully
transparent `{0,0,0,0}`, not the claimed opaque white. -/
theorem C8_pad_fill_counterexample :
    getContextParse "width=400,height=300,fit=pad" 800 400 "jpeg" =
      .ok (⟨some .transparentStd, 400, 300, "jpeg", 100⟩, [(.fit, "pad")]) ∧
    createFilters [(.fit, "pad")] ⟨some .transparentStd, 400, 300, "jpeg", 100⟩ =
      .ok [.padFit 400 300 (some .transparentStd)] ∧
    padDrawPixel 400 300 (some .transparentStd) 400 200
      (fun _ _ => ⟨9, 9, 9, 255⟩) 399 299 = ⟨0, 0, 0, 0⟩ ∧
    (⟨0, 0, 0, 0⟩ : RGBA) ≠ ⟨255, 255, 255, 255⟩ := by
  exact ⟨by decide, by decide, by decide, by decide⟩

/-- C8 as amended: when no background option is supplied the descriptor
carries `color.Transparent` (never nil), so every uncovered pad pixel is
filled fully transparent; the opaque-white fallback fires only when the
filter's stored background is nil, which the parsing path never
produces. -/
theorem C8_pad_uncovered_transparent (srcW srcH : ℤ) (fmt : String)
    (fw fh tempW tempH : ℤ) (temp : ℤ → ℤ → RGBA) (x y : ℤ) :
    (initialDestination srcW srcH fmt).bgColor = some .transparentStd ∧
    (¬ ((fw - tempW) / 2 ≤ x ∧ x < (fw - tempW) / 2 + tempW ∧
        (fh - tempH) / 2 ≤ y ∧ y < (fh - tempH) / 2 + tempH) →
      padDrawPixel fw fh (some .transparentStd) tempW tempH temp x y =
        ⟨0, 0, 0, 0⟩) ∧
    padFillColor none = .whiteStd ∧
    padFillColor (some .transparentStd) = .transparentStd := by
  refine ⟨rfl, ?_, rfl, rfl⟩
  intro hout
  unfold padDrawPixel
  dsimp only
  rw [if_neg hout]
  rfl

/-- Witness for C8 at the concrete uncovered pixel `(399,299)` of a
400×300 pad box with a 400×200 overlay. -/
theorem C8_pad_uncovered_transparent_witness :
    padDrawPixel 400 300 (some .transparentStd) 400 200
      (fun _ _ => (⟨9, 9, 9, 255⟩ : RGBA)) 399 299 = ⟨0, 0, 0, 0⟩ :=
  (C8_pad_uncovered_transparent 800 400 "jpeg" 400 300 400 200
    (fun _ _ => ⟨9, 9, 9, 255⟩) 399 299).2.1 (by decide)

end KritiImages
